/-
Verification of the faceless-youtube-factory production pipeline.

The repository ships a presentation layer (Next.js pages) and a deployment
guide; the backend core (Pipeline Orchestrator, Scheduler, Cron Evaluator,
Project State Store, Platform Connector) is described by the specification
but its sources are not part of the repository snapshot.  Definitions below
that embed the backend are therefore modelled from the specification and
say so in their doc comments; definitions for `getStaticUrl`, the status
badge rendering and `authFetch` are embedded directly from the frontend
sources.  JavaScript strings manipulated generically are embedded as
`List Char`; strings only compared for equality stay `String`.
-/
import Mathlib

/-- Modelled from the spec: the closed set of project lifecycle states
(section 4.1); the frontend `statusConfig` enumerates the same ten keys. -/
inductive Status where
  | draft
  | generating_script
  | casting
  | generating_images
  | generating_audio
  | generating_video
  | completed
  | uploading_youtube
  | published
  | failed
deriving DecidableEq

/-- Position of a status in the pipeline order; `failed` sits past every
other state so that the failure edge is monotone. -/
def statusIndex : Status → Nat
  | .draft => 0
  | .generating_script => 1
  | .casting => 2
  | .generating_images => 3
  | .generating_audio => 4
  | .generating_video => 5
  | .completed => 6
  | .uploading_youtube => 7
  | .published => 8
  | .failed => 9

/-- The fixed pipeline order of section 4.1, without the failure state. -/
def pipelineOrder : List Status :=
  [.draft, .generating_script, .casting, .generating_images,
   .generating_audio, .generating_video, .completed, .uploading_youtube,
   .published]

/-- Successor of a status in the fixed pipeline order (terminal states map
to themselves). -/
def orderSucc : Status → Status
  | .draft => .generating_script
  | .generating_script => .casting
  | .casting => .generating_images
  | .generating_images => .generating_audio
  | .generating_audio => .generating_video
  | .generating_video => .completed
  | .completed => .uploading_youtube
  | .uploading_youtube => .published
  | .published => .published
  | .failed => .failed

/-- Modelled from the spec: successful advancement (section 4.1).  From
`completed` the pipeline continues to `uploading_youtube` only when the
project requested upload; `auto_upload = false` skips the upload edge and
`completed` is then terminal. -/
def nextStatus (s : Status) (autoUp : Bool) : Option Status :=
  match s with
  | .draft => some .generating_script
  | .generating_script => some .casting
  | .casting => some .generating_images
  | .generating_images => some .generating_audio
  | .generating_audio => some .generating_video
  | .generating_video => some .completed
  | .completed => if autoUp then some .uploading_youtube else none
  | .uploading_youtube => some .published
  | .published => none
  | .failed => none

/-- Modelled from the spec: the six production stages behind the uniform
Stage Contract (section 2). -/
inductive Stage where
  | script
  | cast
  | image
  | audio
  | video
  | upload
deriving DecidableEq

/-- Modelled from the spec: the stage registered for each status
(section 4.1, "from state S, the Orchestrator invokes the Stage Contract
registered for S"). -/
def stageFor : Status → Option Stage
  | .generating_script => some .script
  | .casting => some .cast
  | .generating_images => some .image
  | .generating_audio => some .audio
  | .generating_video => some .video
  | .uploading_youtube => some .upload
  | _ => none

/-- Pipeline position of a stage: the index of the status it is registered
for. -/
def stagePos : Stage → Nat
  | .script => 1
  | .cast => 2
  | .image => 3
  | .audio => 4
  | .video => 5
  | .upload => 7

/-- Modelled from the spec: the typed failures a stage may return
(section 7 error taxonomy). -/
inductive StageError where
  | stageExecutionError (msg : List Char)
  | authRequired
  | cancelled
deriving DecidableEq

/-- Rendering of a typed stage failure onto the project's error message. -/
def errMsgOf : StageError → List Char
  | .stageExecutionError m => ("StageExecutionError: ".toList) ++ m
  | .authRequired => ("AuthRequired".toList)
  | .cancelled => ("Cancelled".toList)

/-- Asset kinds of the data model (section 3). -/
inductive AssetType where
  | image
  | audio
  | video
deriving DecidableEq

/-- An asset record of the project data model (section 3). -/
structure Asset where
  assetType : AssetType
  url : List Char
  sceneIndex : Option Nat
deriving DecidableEq

/-- Modelled from the spec: outcome of one Stage Contract invocation:
new assets, or a typed failure (section 2). -/
inductive StageResult where
  | success (assets : List Asset)
  | failure (e : StageError)
deriving DecidableEq

/-- The Project record of the data model (section 3), with the Scheduler's
attribution field `jobId`. -/
structure Project where
  id : Nat
  status : Status
  assets : List Asset
  errorMsg : Option (List Char)
  autoUpload : Bool
  jobId : Option Nat
deriving DecidableEq

/-- Modelled from the spec: one Orchestrator transition (section 4.1).
If a stage is registered for the current status it is invoked: success
appends the produced assets and advances to the next state in the fixed
order, a typed failure moves to `failed` and records the error message.
Statuses without a stage advance along the order (or stay put when
terminal).  Returns the updated project and the list of invoked stages. -/
def step (env : Stage → StageResult) (p : Project) : Project × List Stage :=
  match stageFor p.status with
  | some st =>
    match env st with
    | .success as =>
      ({ p with status := (nextStatus p.status p.autoUpload).getD p.status,
                assets := p.assets ++ as }, [st])
    | .failure e =>
      ({ p with status := .failed, errorMsg := some (errMsgOf e) }, [st])
  | none =>
    match nextStatus p.status p.autoUpload with
    | some s' => ({ p with status := s' }, [])
    | none => (p, [])

/-- Modelled from the spec: the Orchestrator driving a project for at most
`n` transitions, collecting every invoked stage in order.  Terminal
projects are left unchanged, so any sufficiently large `n` runs the
pipeline to completion. -/
def run : Nat → (Stage → StageResult) → Project → Project × List Stage
  | 0, _, p => (p, [])
  | n + 1, env, p =>
    let r := step env p
    let rest := run n env r.1
    (rest.1, r.2 ++ rest.2)

/-- Iterated Orchestrator transitions under a per-tick environment. -/
def iter (envs : Nat → Stage → StageResult) (p : Project) : Nat → Project
  | 0 => p
  | n + 1 => (step (envs n) (iter envs p n)).1

/-- The sequence of distinct status values observed while iterating
(consecutive repetitions collapsed). -/
def observed (envs : Nat → Stage → StageResult) (p : Project) : Nat → List Status
  | 0 => [p.status]
  | n + 1 =>
    if (iter envs p (n + 1)).status = (iter envs p n).status then
      observed envs p n
    else
      observed envs p n ++ [(iter envs p (n + 1)).status]

/-- A status sequence allowed by the claim: a prefix of the fixed pipeline
order, optionally terminated by `failed` after a non-terminal state. -/
def validSeq (l : List Status) : Prop :=
  (∃ k, 1 ≤ k ∧ k ≤ 9 ∧ l = pipelineOrder.take k) ∨
  (∃ k, 1 ≤ k ∧ k ≤ 8 ∧ l = pipelineOrder.take k ++ [Status.failed])

/-- A freshly created project (section 6, CreateProject yields `draft`). -/
def mkDraft (autoUp : Bool) : Project :=
  { id := 0, status := .draft, assets := [], errorMsg := none,
    autoUpload := autoUp, jobId := none }

/-- Splits a character list on a separator character. -/
def splitOnChar (c : Char) : List Char → List (List Char)
  | [] => [[]]
  | x :: xs =>
    let r := splitOnChar c xs
    if x = c then [] :: r
    else
      match r with
      | [] => [[x]]
      | y :: ys => (x :: y) :: ys

/-- Decimal value of a digit character, if it is one. -/
def digitVal (c : Char) : Option Nat :=
  if '0' ≤ c ∧ c ≤ '9' then some (c.toNat - ('0').toNat) else none

/-- Accumulating decimal parse of a digit list. -/
def parseNatAux : List Char → Nat → Option Nat
  | [], acc => some acc
  | c :: cs, acc =>
    match digitVal c with
    | some d => parseNatAux cs (acc * 10 + d)
    | none => none

/-- Parses a non-empty all-digit character list as a natural number. -/
def parseNatList (l : List Char) : Option Nat :=
  match l with
  | [] => none
  | _ => parseNatAux l 0

/-- A contiguous segment of values admitted by one cron field item:
values `v` with `lo ≤ v ≤ hi` and `(v - lo) % stride = 0`. -/
structure Seg where
  lo : Nat
  hi : Nat
  stride : Nat
deriving DecidableEq

/-- Modelled from the spec: base part of a cron item, either a full-range
star, a single value, or an inclusive range, validated against the field
bounds (section 4.2). -/
def parseBaseRange (lo hi : Nat) (l : List Char) : Option (Nat × Nat) :=
  if l = ['*'] then some (lo, hi)
  else
    match splitOnChar '-' l with
    | [single] =>
      match parseNatList single with
      | some n => if lo ≤ n ∧ n ≤ hi then some (n, n) else none
      | none => none
    | [a, b] =>
      match parseNatList a, parseNatList b with
      | some x, some y =>
        if lo ≤ x ∧ x ≤ y ∧ y ≤ hi then some (x, y) else none
      | _, _ => none
    | _ => none

/-- Modelled from the spec: one comma-separated cron item, with an
optional `/step` suffix (section 4.2 mentions lists, ranges and steps). -/
def parseItem (lo hi : Nat) (l : List Char) : Option Seg :=
  match splitOnChar '/' l with
  | [base] =>
    match parseBaseRange lo hi base with
    | some r => some { lo := r.1, hi := r.2, stride := 1 }
    | none => none
  | [base, stepChars] =>
    match parseBaseRange lo hi base, parseNatList stepChars with
    | some r, some k =>
      if 1 ≤ k then some { lo := r.1, hi := r.2, stride := k } else none
    | _, _ => none
  | _ => none

/-- One parsed cron field: its admitted segments, and whether the field
was the unrestricted `*` (which drives the day-of-month/day-of-week OR
semantics). -/
structure CronField where
  star : Bool
  segs : List Seg
deriving DecidableEq

/-- Modelled from the spec: parses one cron field as a comma-separated
item list validated against the field bounds. -/
def parseField (lo hi : Nat) (l : List Char) : Option CronField :=
  match (splitOnChar ',' l).mapM (parseItem lo hi) with
  | some segs => some { star := l = ['*'], segs := segs }
  | none => none

/-- A parsed five-field cron expression. -/
structure CronExpr where
  minuteF : CronField
  hourF : CronField
  domF : CronField
  monthF : CronField
  dowF : CronField
deriving DecidableEq

/-- Modelled from the spec: the Cron Evaluator's parser for 5-field
minute-granularity expressions; malformed input yields `none`
(section 4.2). -/
def parseCronList (s : List Char) : Option CronExpr :=
  match (splitOnChar ' ' s).filter (fun w => ¬ w.isEmpty) with
  | [mi, h, dm, mo, dw] =>
    match parseField 0 59 mi, parseField 0 23 h, parseField 1 31 dm,
          parseField 1 12 mo, parseField 0 7 dw with
    | some a, some b, some c, some d, some e =>
      some { minuteF := a, hourF := b, domF := c, monthF := d, dowF := e }
    | _, _, _, _, _ => none
  | _ => none

/-- Whether a value lies in one segment. -/
def segMatch (v : Nat) (s : Seg) : Bool :=
  decide (s.lo ≤ v) && decide (v ≤ s.hi) && decide ((v - s.lo) % s.stride = 0)

/-- Whether a value matches a cron field. -/
def fieldMatch (f : CronField) (v : Nat) : Bool :=
  f.segs.any (segMatch v)

/-- Broken-down instant: calendar month and day, hour, minute, and day of
week with Sunday = 0. -/
structure DT where
  month : Nat
  day : Nat
  hour : Nat
  minute : Nat
  dow : Nat
deriving DecidableEq

/-- Gregorian calendar date from a count of days since 1970-01-01,
returned as (year, month, day). -/
def civilFromDays (d : Nat) : Nat × Nat × Nat :=
  let z := d + 719468
  let era := z / 146097
  let doe := z % 146097
  let yoe := (doe - doe / 1460 + doe / 36524 - doe / 146096) / 365
  let doy := doe - (365 * yoe + yoe / 4 - yoe / 100)
  let mp := (5 * doy + 2) / 153
  let dd := doy - (153 * mp + 2) / 5 + 1
  let m := if mp < 10 then mp + 3 else mp - 9
  let y := yoe + era * 400
  (if m ≤ 2 then y + 1 else y, m, dd)

/-- Breaks an instant (minutes since the epoch 1970-01-01T00:00 UTC) into
calendar fields; 1970-01-01 was a Thursday. -/
def toDT (t : Nat) : DT :=
  let days := t / 1440
  let c := civilFromDays days
  { month := c.2.1, day := c.2.2, hour := (t / 60) % 24, minute := t % 60,
    dow := (days + 4) % 7 }

/-- Modelled from the spec: whether an instant satisfies a cron
expression; day-of-month and day-of-week combine with OR semantics when
both are restricted (section 4.2), and day-of-week value 7 also means
Sunday. -/
def cronMatches (e : CronExpr) (t : Nat) : Bool :=
  let d := toDT t
  let dowOK := fieldMatch e.dowF d.dow || (decide (d.dow = 0) && fieldMatch e.dowF 7)
  let domOK := fieldMatch e.domF d.day
  fieldMatch e.minuteF d.minute && fieldMatch e.hourF d.hour &&
  fieldMatch e.monthF d.month &&
  (if e.domF.star && e.dowF.star then true
   else if e.domF.star then dowOK
   else if e.dowF.star then domOK
   else domOK || dowOK)

/-- First point at or after `start` satisfying `p`, searching at most
`fuel` points. -/
def findFirst (p : Nat → Bool) : Nat → Nat → Option Nat
  | _, 0 => none
  | start, fuel + 1 => if p start then some start else findFirst p (start + 1) fuel

/-- Modelled from the spec: the next instant strictly after `t` that
satisfies the expression (section 4.2).  The search spans one full
Gregorian cycle of minutes (146097 days = 400 years, and 146097 is a
multiple of 7, so after that span the calendar and the day-of-week
pattern both repeat exactly); `cronMatches` is proven periodic with this
period, so a `none` result means no instant at all satisfies the
expression. -/
def cronNext (e : CronExpr) (t : Nat) : Option Nat :=
  findFirst (cronMatches e) (t + 1) 210379680

/-- Parse-then-evaluate convenience wrapper for the Cron Evaluator. -/
def cronNextOf (s : List Char) (t : Nat) : Option Nat :=
  match parseCronList s with
  | some e => cronNext e t
  | none => none

/-- Whether a status is terminal for a project with the given
`auto_upload` flag: `failed` and `published` always, `completed` exactly
when no upload was requested (section 4.1). -/
def terminalStatus (s : Status) (autoUp : Bool) : Bool :=
  match s with
  | .failed => true
  | .published => true
  | .completed => !autoUp
  | _ => false

/-- A project still being driven by the Orchestrator. -/
def inFlight (p : Project) : Bool :=
  !(terminalStatus p.status p.autoUpload)

/-- The ScheduledJob record of the data model (section 3). -/
structure SJob where
  id : Nat
  name : List Char
  cronExpr : List Char
  topicCategory : List Char
  videoFormat : List Char
  autoUp : Bool
  enabled : Bool
  lastRunAt : Option Nat
  nextRunAt : Nat
deriving DecidableEq

/-- Shared durable state: the Job Store and the Project State Store,
plus a fresh-id counter. -/
structure SchedState where
  jobs : List SJob
  projects : List Project
  nextId : Nat
deriving DecidableEq

/-- Per-job outcome of one Scheduler tick (section 7: `OverlapSkipped` is
an internal no-op, not a user-facing error). -/
inductive TickOutcome where
  | started (pid : Nat)
  | overlapSkipped
  | notDue
  | skippedDisabled
deriving DecidableEq

/-- Number of in-flight projects attributed to a given job. -/
def inFlightCount (st : SchedState) (jid : Nat) : Nat :=
  (st.projects.filter (fun p => p.jobId == some jid && inFlight p)).length

/-- Recomputes a job's next due time via the Cron Evaluator. -/
def recomputeNext (cron : List Char) (now : Nat) : Nat :=
  match parseCronList cron with
  | some e => (cronNext e now).getD (now + 1)
  | none => now + 1

/-- Modelled from the spec: the Scheduler's handling of one job within a
tick (section 4.3): disabled and not-yet-due jobs are skipped; a due job
with an in-flight project attributed to it is skipped as `OverlapSkipped`
(the missed occurrence is not replayed); otherwise a new draft project
seeded from the job is created and the run bookkeeping advanced. -/
def tickJob (now : Nat) (st : SchedState) (j : SJob) : SchedState × TickOutcome :=
  if j.enabled = true then
    if now < j.nextRunAt then (st, .notDue)
    else if 0 < inFlightCount st j.id then
      ({ st with
         jobs := st.jobs.map (fun k =>
           if k.id = j.id then { k with nextRunAt := recomputeNext k.cronExpr now }
           else k) }, .overlapSkipped)
    else
      let p : Project :=
        { id := st.nextId, status := .draft, assets := [], errorMsg := none,
          autoUpload := j.autoUp, jobId := some j.id }
      ({ st with
         projects := st.projects ++ [p],
         nextId := st.nextId + 1,
         jobs := st.jobs.map (fun k =>
           if k.id = j.id then
             { k with lastRunAt := some now, nextRunAt := recomputeNext k.cronExpr now }
           else k) }, .started st.nextId)
  else (st, .skippedDisabled)

/-- Folds `tickJob` over a snapshot of the job list, threading the state. -/
def tickAux (now : Nat) : List SJob → SchedState → SchedState × List TickOutcome
  | [], st => (st, [])
  | j :: js, st =>
    let r := tickJob now st j
    let rest := tickAux now js r.1
    (rest.1, r.2 :: rest.2)

/-- Modelled from the spec: one Scheduler evaluation tick over every job
(section 4.3). -/
def tick (now : Nat) (st : SchedState) : SchedState × List TickOutcome :=
  tickAux now st.jobs st

/-- One concurrent pipeline transition applied to the identified project
inside the shared store. -/
def stepProjectIn (env : Stage → StageResult) (pid : Nat) (st : SchedState) : SchedState :=
  { st with projects := st.projects.map (fun p => if p.id = pid then (step env p).1 else p) }

/-- Modelled from the spec: the Platform Connector exposing the upload
stage (section 4.4): when disconnected the upload stage is the typed
failure `AuthRequired`; every other stage, and the connected upload
stage, behave as the underlying implementation. -/
def connectorEnv (connected : Bool) (inner : Stage → StageResult) : Stage → StageResult :=
  fun st =>
    match st with
    | .upload => if connected then inner .upload else .failure .authRequired
    | other => inner other

/-- Badge variants of the frontend `Badge` component, from the
`statusConfig` value type in the project page source. -/
inductive BadgeVariant where
  | default
  | secondary
  | destructive
  | success
  | warning
deriving DecidableEq

/-- Icons used by `statusConfig` in the project page source. -/
inductive Icon where
  | clock
  | loader2
  | checkCircle2
  | youtube
  | alertCircle
deriving DecidableEq

/-- One `statusConfig` entry: label, badge variant and icon. -/
structure StatusCfg where
  label : String
  variant : BadgeVariant
  icon : Icon
deriving DecidableEq

/-- The `statusConfig` record of the project page source, keyed by the
ten lifecycle states. -/
def statusConfig : Status → StatusCfg
  | .draft => { label := "Draft", variant := .secondary, icon := .clock }
  | .generating_script => { label := "Writing Script", variant := .default, icon := .loader2 }
  | .casting => { label := "Casting", variant := .default, icon := .loader2 }
  | .generating_images => { label := "Generating Images", variant := .default, icon := .loader2 }
  | .generating_audio => { label := "Generating Audio", variant := .default, icon := .loader2 }
  | .generating_video => { label := "Composing Video", variant := .default, icon := .loader2 }
  | .completed => { label := "Completed", variant := .success, icon := .checkCircle2 }
  | .uploading_youtube => { label := "Uploading", variant := .warning, icon := .youtube }
  | .published => { label := "Published", variant := .success, icon := .youtube }
  | .failed => { label := "Failed", variant := .destructive, icon := .alertCircle }

/-- The JavaScript object lookup `statusConfig[project.status]` performed
by the page on the status string it received: a key among the ten
enumerated states finds its entry, anything else is `undefined`. -/
def statusOfString (s : String) : Option Status :=
  if s = "draft" then some .draft
  else if s = "generating_script" then some .generating_script
  else if s = "casting" then some .casting
  else if s = "generating_images" then some .generating_images
  else if s = "generating_audio" then some .generating_audio
  else if s = "generating_video" then some .generating_video
  else if s = "completed" then some .completed
  else if s = "uploading_youtube" then some .uploading_youtube
  else if s = "published" then some .published
  else if s = "failed" then some .failed
  else none

/-- What the page's status badge renders: variant, icon and label. -/
structure BadgeView where
  variant : BadgeVariant
  icon : Icon
  label : String
deriving DecidableEq

/-- The badge rendering of `AutomationProjectPage`: with a known status
it uses the `statusConfig` entry; otherwise the fallbacks
`config?.variant || "secondary"`, `config?.icon || Clock` and
`config?.label || project.status` apply. -/
def renderBadge (statusStr : String) : BadgeView :=
  match statusOfString statusStr with
  | some st =>
    let c := statusConfig st
    { variant := c.variant, icon := c.icon, label := c.label }
  | none => { variant := .secondary, icon := .clock, label := statusStr }

/-- The four characters the frontend `getStaticUrl` tests for. -/
def httpChars : List Char := ['h', 't', 't', 'p']

/-- The path segment `/static/` inserted by `getStaticUrl`. -/
def staticSeg : List Char := ['/', 's', 't', 'a', 't', 'i', 'c', '/']

/-- The frontend `getStaticUrl`, parametrised by the configured
`API_BASE`: a url starting with "http" is returned unchanged, anything
else becomes `API_BASE + "/static/" + url`. -/
def getStaticUrl (apiBase url : List Char) : List Char :=
  if httpChars.isPrefixOf url then url else apiBase ++ staticSeg ++ url

/-- An absolute URL in the sense of the claim: an http or https URL. -/
def isAbsoluteUrl (url : List Char) : Bool :=
  (("http://").toList).isPrefixOf url || (("https://").toList).isPrefixOf url

/-- The default `API_BASE` of the page source. -/
def defaultApiBase : List Char := ("http://localhost:8000").toList

/-- A parsed JSON body as `authFetch` can receive it: the JSON value
`null`, an object with an optional `detail` field (modelled as a string;
JavaScript truthiness of a string is non-emptiness), or any other
non-null value (number, string, boolean, array), on which a `detail`
property read yields `undefined` without throwing. -/
inductive JsonBody where
  | null
  | obj (detail : Option String)
  | prim
deriving DecidableEq

/-- An HTTP response as `authFetch` observes it: the `ok` flag, the
numeric status, and the body's JSON decoding (`none` when
`response.json()` rejects). -/
structure HttpResponse where
  ok : Bool
  status : Nat
  bodyJson : Option JsonBody
deriving DecidableEq

/-- What `authFetch` can throw: an `Error` carrying a message, the
`TypeError` raised by reading `.detail` of a parsed `null` body, or the
`SyntaxError` of `response.json()` rejecting on the ok path. -/
inductive Thrown where
  | err (msg : String)
  | typeError
  | syntaxError
deriving DecidableEq

/-- The value thrown for a non-ok response: the source builds
`new Error(error.detail || ...)` where `error` is the parsed body, or the
recovery object carrying "Unknown error" when parsing failed; reading
`.detail` of a parsed `null` itself throws a `TypeError`, and a falsy or
absent `detail` falls back to `API Error: <status>`. -/
def thrownFor (body : Option JsonBody) (status : Nat) : Thrown :=
  match body with
  | none => .err ("Unknown error")
  | some .null => .typeError
  | some (.obj (some d)) =>
    if d = "" then .err ("API Error: " ++ toString status) else .err d
  | some (.obj none) => .err ("API Error: " ++ toString status)
  | some .prim => .err ("API Error: " ++ toString status)

/-- The frontend `authFetch` on a received response: non-ok responses
throw with `thrownFor`; ok responses return the parsed JSON body, the
parse rejection of `response.json()` propagating as a thrown
SyntaxError. -/
def authFetch (r : HttpResponse) : Except Thrown JsonBody :=
  if r.ok = true then
    match r.bodyJson with
    | some j => .ok j
    | none => .error .syntaxError
  else .error (thrownFor r.bodyJson r.status)

/-- Whether an `authFetch` result is a thrown error. -/
def isErr : Except Thrown JsonBody → Bool
  | .error _ => true
  | .ok _ => false

/-- A stage environment that always succeeds, producing no assets. -/
def allSuccess : Stage → StageResult := fun _ => .success []

/-- A concrete image asset produced by the image stage. -/
def imgAsset : Asset :=
  { assetType := .image, url := ("img1.png").toList, sceneIndex := some 0 }

/-- A stage environment whose audio stage fails with a typed execution
error while every other stage succeeds. -/
def audioFailEnv : Stage → StageResult :=
  fun st =>
    match st with
    | .audio => .failure (.stageExecutionError (("TTS failed").toList))
    | _ => .success []

/-- A concrete project recorded mid-pipeline at `generating_audio`, with
an image asset already produced. -/
def pAudio : Project :=
  { id := 7, status := .generating_audio, assets := [imgAsset],
    errorMsg := none, autoUpload := false, jobId := none }

/-- A concrete enabled scheduled job due at instant 100. -/
def wJob : SJob :=
  { id := 1, name := [], cronExpr := ("0 2 * * *").toList, topicCategory := [],
    videoFormat := [], autoUp := true, enabled := true, lastRunAt := none,
    nextRunAt := 100 }

/-- A concrete project created by job 1, still composing its video. -/
def wProj : Project :=
  { id := 0, status := .generating_video, assets := [], errorMsg := none,
    autoUpload := true, jobId := some 1 }

/-- A concrete shared state holding the due job and its in-flight
project. -/
def wState : SchedState :=
  { jobs := [wJob], projects := [wProj], nextId := 5 }

/-- The parse result of the expression `*/6 * * * *`. -/
def cronE6 : CronExpr :=
  { minuteF := { star := false, segs := [{ lo := 0, hi := 59, stride := 6 }] },
    hourF := { star := true, segs := [{ lo := 0, hi := 23, stride := 1 }] },
    domF := { star := true, segs := [{ lo := 1, hi := 31, stride := 1 }] },
    monthF := { star := true, segs := [{ lo := 1, hi := 12, stride := 1 }] },
    dowF := { star := true, segs := [{ lo := 0, hi := 7, stride := 1 }] } }

/-- One Orchestrator transition invokes exactly the stage registered for
the current status. -/
theorem step_stages (env : Stage → StageResult) (p : Project) :
    (step env p).2 = (stageFor p.status).toList := by
  obtain ⟨pid, s, as, em, au, jid⟩ := p
  cases s <;> simp only [step, stageFor] <;> first | rfl | (split <;> rfl)

/-- Terminal projects are fixed points of the Orchestrator transition. -/
theorem step_of_terminal (env : Stage → StageResult) (p : Project)
    (h : terminalStatus p.status p.autoUpload = true) : step env p = (p, []) := by
  obtain ⟨pid, s, as, em, au, jid⟩ := p
  cases s <;> simp_all [terminalStatus, step, stageFor, nextStatus]

/-- The status never moves backward in the pipeline order. -/
theorem step_mono (env : Stage → StageResult) (p : Project) :
    statusIndex p.status ≤ statusIndex ((step env p).1).status := by
  obtain ⟨pid, s, as, em, au, jid⟩ := p
  cases s <;> cases au <;>
    first
      | (simp [step, stageFor, nextStatus, statusIndex]; done)
      | (simp only [step, stageFor, nextStatus]; split <;> simp_all [statusIndex])

/-- A transition that invokes a stage strictly advances the status. -/
theorem step_strict (env : Stage → StageResult) (p : Project) (st : Stage)
    (h : stageFor p.status = some st) :
    statusIndex p.status < statusIndex ((step env p).1).status := by
  obtain ⟨pid, s, as, em, au, jid⟩ := p
  cases s <;>
    first
      | exact Option.noConfusion h
      | (cases au <;> simp only [step, stageFor, nextStatus] <;> split <;>
          simp [statusIndex])

/-- Transitions keep the job attribution of a project. -/
theorem step_jobId (env : Stage → StageResult) (p : Project) :
    ((step env p).1).jobId = p.jobId := by
  obtain ⟨pid, s, as, em, au, jid⟩ := p
  cases s <;> cases au <;> simp only [step, stageFor, nextStatus] <;>
    first
      | rfl
      | (split <;> rfl)

/-- Shape of one transition: the status stays, advances to its pipeline
successor, or jumps to `failed` from a stage-bearing status. -/
theorem step_status_cases (env : Stage → StageResult) (p : Project) :
    ((step env p).1).status = p.status ∨
    (((step env p).1).status = orderSucc p.status ∧ p.status ≠ .published ∧ p.status ≠ .failed) ∨
    (((step env p).1).status = .failed ∧ stageFor p.status ≠ none) := by
  obtain ⟨pid, s, as, em, au, jid⟩ := p
  cases s <;> cases au <;> simp [step, stageFor, nextStatus, orderSucc] <;>
    (split <;> simp_all [orderSucc])

/-- A failed project is left untouched, with no stage invoked. -/
theorem step_failed (env : Stage → StageResult) (p : Project)
    (h : p.status = .failed) : step env p = (p, []) := by
  obtain ⟨pid, s, as, em, au, jid⟩ := p
  simp only at h
  subst h
  rfl

/-- A failed project stays failed for the rest of the run, with no
further stage invocations. -/
theorem run_from_failed (n : Nat) (env : Stage → StageResult) (p : Project)
    (h : p.status = .failed) : run n env p = (p, []) := by
  induction n with
  | zero => rfl
  | succ m ih =>
    simp [run, step_failed env p h, ih]

/-- The pipeline position of a registered stage is the index of the
status it is registered for. -/
theorem stageFor_pos (s : Status) (st : Stage) (h : stageFor s = some st) :
    stagePos st = statusIndex s := by
  cases s <;>
    first
      | exact Option.noConfusion h
      | (injection h with h2; subst h2; rfl)

/-- Every stage invoked during a run sits at or after the starting
status in the pipeline order. -/
theorem run_trace_lb (n : Nat) (env : Stage → StageResult) (p : Project)
    (st' : Stage) (h : st' ∈ (run n env p).2) :
    statusIndex p.status ≤ stagePos st' := by
  induction n generalizing p with
  | zero => simp [run] at h
  | succ m ih =>
    simp only [run, List.mem_append] at h
    rcases h with h | h
    · rw [step_stages] at h
      rcases hs : stageFor p.status with _ | st0
      · rw [hs] at h; simp at h
      · rw [hs] at h; simp at h
        subst h
        exact (stageFor_pos _ _ hs).ge
    · exact le_trans (step_mono env p) (ih _ h)

/-- Arithmetic of the pipeline successor for non-terminal, non-failed
statuses. -/
theorem orderSucc_facts (s : Status) (h1 : s ≠ .published) (h2 : s ≠ .failed) :
    statusIndex (orderSucc s) = statusIndex s + 1 ∧
    pipelineOrder.take (statusIndex s + 2) =
      pipelineOrder.take (statusIndex s + 1) ++ [orderSucc s] ∧
    orderSucc s ≠ .failed ∧ orderSucc s ≠ s := by
  cases s <;> first | (exact absurd rfl h1) | (exact absurd rfl h2) | decide

/-- Stage-bearing statuses sit strictly inside the pipeline order. -/
theorem stageFor_idx_le (s : Status) (h : stageFor s ≠ none) :
    1 ≤ statusIndex s + 1 ∧ statusIndex s + 1 ≤ 8 := by
  cases s <;> first | (exact absurd rfl h) | decide

/-- Every status other than `failed` has index at most 8. -/
theorem statusIndex_le8 (s : Status) (h : s ≠ .failed) : statusIndex s ≤ 8 := by
  cases s <;> first | (exact absurd rfl h) | decide

/-- Invariant of the observed status sequence of a project started in
`draft`: while not failed it is exactly the pipeline prefix ending at the
current status; once failed it is such a prefix followed by `failed`. -/
theorem observed_inv (envs : Nat → Stage → StageResult) (au : Bool) (n : Nat) :
    ((iter envs (mkDraft au) n).status ≠ .failed ∧
      observed envs (mkDraft au) n =
        pipelineOrder.take (statusIndex (iter envs (mkDraft au) n).status + 1)) ∨
    ((iter envs (mkDraft au) n).status = .failed ∧
      ∃ k, 1 ≤ k ∧ k ≤ 8 ∧
        observed envs (mkDraft au) n = pipelineOrder.take k ++ [Status.failed]) := by
  induction n with
  | zero =>
    left
    exact ⟨by simp [iter, mkDraft], rfl⟩
  | succ m ih =>
    have hiter : iter envs (mkDraft au) (m + 1)
        = (step (envs m) (iter envs (mkDraft au) m)).1 := rfl
    by_cases heq : (iter envs (mkDraft au) (m + 1)).status
        = (iter envs (mkDraft au) m).status
    · have hobs : observed envs (mkDraft au) (m + 1) = observed envs (mkDraft au) m := by
        simp [observed, heq]
      rcases ih with ⟨h1, h2⟩ | ⟨h1, h2⟩
      · left
        rw [hobs, heq]
        exact ⟨h1, h2⟩
      · right
        rw [hobs, heq]
        exact ⟨h1, h2⟩
    · have hobs : observed envs (mkDraft au) (m + 1)
          = observed envs (mkDraft au) m ++ [(iter envs (mkDraft au) (m + 1)).status] := by
        simp [observed, heq]
      rcases step_status_cases (envs m) (iter envs (mkDraft au) m) with
        hsame | ⟨hsucc, hpub, hfl⟩ | ⟨hfailed, hstage⟩
      · rw [← hiter] at hsame
        exact absurd hsame heq
      · rcases ih with ⟨h1, h2⟩ | ⟨h1, h2⟩
        · obtain ⟨e1, e2, e3, e4⟩ := orderSucc_facts _ hpub hfl
          rw [← hiter] at hsucc
          left
          constructor
          · rw [hsucc]; exact e3
          · rw [hobs, h2, hsucc, e1, ← e2]
        · rw [step_failed (envs m) _ h1] at hiter
          rw [hiter] at heq
          simp at heq
      · rcases ih with ⟨h1, h2⟩ | ⟨h1, h2⟩
        · obtain ⟨b1, b2⟩ := stageFor_idx_le _ hstage
          rw [← hiter] at hfailed
          right
          constructor
          · exact hfailed
          · refine ⟨statusIndex (iter envs (mkDraft au) m).status + 1, b1, b2, ?_⟩
            rw [hobs, h2, hfailed]
        · rw [step_failed (envs m) _ h1] at hiter
          rw [hiter] at heq
          simp at heq

/-- C1: amended — every reachable status sequence of a project is a
prefix of the fixed pipeline order optionally terminated by `failed`, and
the status never moves backward; `published` and `failed` are terminal,
and `completed` is terminal exactly when upload was not requested: with
`auto_upload = true` the one transition leaving `completed` goes to
`uploading_youtube`. -/
theorem pipeline_status_machine :
    (∀ envs au n, validSeq (observed envs (mkDraft au) n))
    ∧ (∀ env (p : Project), statusIndex p.status ≤ statusIndex ((step env p).1).status)
    ∧ (∀ env (p : Project),
        (p.status = .published ∨ p.status = .failed ∨
          (p.status = .completed ∧ p.autoUpload = false)) → (step env p).1 = p)
    ∧ (∀ env (p : Project), p.status = .completed → p.autoUpload = true →
        ((step env p).1).status = .uploading_youtube) := by
  refine ⟨?_, ?_, ?_, ?_⟩
  · intro envs au n
    rcases observed_inv envs au n with ⟨h1, h2⟩ | ⟨h1, h2⟩
    · left
      refine ⟨statusIndex (iter envs (mkDraft au) n).status + 1, by omega, ?_, h2⟩
      have := statusIndex_le8 _ h1
      omega
    · right
      exact h2
  · exact step_mono
  · intro env p h
    have ht : terminalStatus p.status p.autoUpload = true := by
      rcases h with h | h | ⟨h, h2⟩ <;> simp [terminalStatus, h]
      exact h2
    rw [step_of_terminal env p ht]
  · intro env p h1 h2
    obtain ⟨pid, s, as, em, au, jid⟩ := p
    simp only at h1 h2
    subst h1; subst h2
    rfl

/-- C1 counterexample: a transition does leave `completed` — a completed
project with `auto_upload = true` moves to `uploading_youtube`, so
`completed` is not terminal as claimed. -/
theorem completed_not_terminal_cex :
    (Project.mk 0 Status.completed [] none true none).status = Status.completed ∧
    ((step (fun _ => StageResult.success [])
        (Project.mk 0 Status.completed [] none true none)).1).status
      = Status.uploading_youtube ∧
    Status.uploading_youtube ≠ Status.completed :=
  ⟨rfl, rfl, by decide⟩

/-- C1 witness: the terminality and the completed-to-uploading conjuncts
applied at concrete projects. -/
theorem pipeline_status_machine_w :
    ((step (fun _ => StageResult.success [])
        (Project.mk 1 Status.published [] none false none)).1
      = Project.mk 1 Status.published [] none false none) ∧
    ((step (fun _ => StageResult.success [])
        (Project.mk 2 Status.completed [] none true none)).1).status
      = Status.uploading_youtube :=
  ⟨pipeline_status_machine.2.2.1 _ _ (Or.inl rfl),
   pipeline_status_machine.2.2.2 _ _ rfl rfl⟩

/-- C4: on resume, for a project whose recorded status has a registered
stage, the Orchestrator first invokes exactly that stage, invokes it
exactly once over the whole run, and never invokes any stage earlier in
the pipeline. -/
theorem resume_invokes_current_stage (env : Stage → StageResult) (p : Project)
    (st : Stage) (n : Nat) (h : stageFor p.status = some st) (hn : 1 ≤ n) :
    (run n env p).2.head? = some st ∧
    (run n env p).2.count st = 1 ∧
    (∀ st', stagePos st' < stagePos st → ¬ st' ∈ (run n env p).2) := by
  obtain ⟨m, rfl⟩ : ∃ m, n = m + 1 := ⟨n - 1, by omega⟩
  have htr : (run (m + 1) env p).2 = [st] ++ (run m env (step env p).1).2 := by
    simp [run, step_stages, h]
  have hlb : ∀ st'', st'' ∈ (run m env (step env p).1).2 → stagePos st < stagePos st'' := by
    intro st'' hm
    have h1 := run_trace_lb m env _ st'' hm
    have h2 := step_strict env p st h
    have h3 := stageFor_pos _ _ h
    omega
  refine ⟨?_, ?_, ?_⟩
  · rw [htr]; rfl
  · rw [htr, List.count_append]
    have hz : (run m env (step env p).1).2.count st = 0 := by
      rw [List.count_eq_zero]
      intro hmem
      exact absurd (hlb st hmem) (Nat.lt_irrefl _)
    simp [hz]
  · intro st' hlt hmem
    rw [htr] at hmem
    rcases List.mem_append.1 hmem with hmem | hmem
    · simp at hmem
      subst hmem
      exact absurd hlt (Nat.lt_irrefl _)
    · have := hlb st' hmem
      omega

/-- C4 witness: resuming a project recorded at `generating_images`
invokes the image stage first and exactly once, and never the script
stage. -/
theorem resume_invokes_current_stage_w :
    ((run 5 (fun _ => StageResult.success [])
        (Project.mk 3 Status.generating_images [] none false none)).2.head? = some Stage.image) ∧
    ((run 5 (fun _ => StageResult.success [])
        (Project.mk 3 Status.generating_images [] none false none)).2.count Stage.image = 1) ∧
    ¬ Stage.script ∈ (run 5 (fun _ => StageResult.success [])
        (Project.mk 3 Status.generating_images [] none false none)).2 := by
  have h := resume_invokes_current_stage (fun _ => StageResult.success [])
      (Project.mk 3 Status.generating_images [] none false none) Stage.image 5 rfl (by omega)
  exact ⟨h.1, h.2.1, h.2.2 Stage.script (by decide)⟩

/-- C5: a typed stage failure moves the project to `failed` with the
non-empty rendered error message, invokes no downstream stage, and leaves
every previously produced asset present and retrievable. -/
theorem stage_failure_frame (env : Stage → StageResult) (p : Project)
    (st : Stage) (e : StageError) (n : Nat)
    (h : stageFor p.status = some st) (he : env st = .failure e) (hn : 1 ≤ n) :
    ((run n env p).1.status = .failed) ∧
    ((run n env p).1.errorMsg = some (errMsgOf e)) ∧
    (errMsgOf e ≠ []) ∧
    ((run n env p).1.assets = p.assets) ∧
    (∀ a, a ∈ p.assets → a ∈ (run n env p).1.assets) ∧
    ((run n env p).2 = [st]) := by
  obtain ⟨m, rfl⟩ : ∃ m, n = m + 1 := ⟨n - 1, by omega⟩
  have hstep : step env p
      = ({ p with status := .failed, errorMsg := some (errMsgOf e) }, [st]) := by
    simp [step, h, he]
  have hrun : run (m + 1) env p
      = ({ p with status := .failed, errorMsg := some (errMsgOf e) }, [st]) := by
    simp [run, hstep, run_from_failed m env
      { p with status := .failed, errorMsg := some (errMsgOf e) } rfl]
  rw [hrun]
  refine ⟨rfl, rfl, ?_, rfl, fun a ha => ha, rfl⟩
  cases e <;> simp [errMsgOf]

/-- C5 witness: an audio-stage failure on a project holding an image
asset ends `failed`, keeps the image asset retrievable, and invokes only
the audio stage. -/
theorem stage_failure_frame_w :
    ((run 5 audioFailEnv pAudio).1.status = .failed) ∧
    ((run 5 audioFailEnv pAudio).1.assets = pAudio.assets) ∧
    ((run 5 audioFailEnv pAudio).2 = [Stage.audio]) ∧
    (imgAsset ∈ (run 5 audioFailEnv pAudio).1.assets) := by
  have h := stage_failure_frame audioFailEnv pAudio Stage.audio
      (.stageExecutionError (("TTS failed").toList)) 5 rfl rfl (by omega)
  exact ⟨h.1, h.2.2.2.1, h.2.2.2.2.2, h.2.2.2.2.1 imgAsset (by simp [pAudio])⟩

/-- A disconnected platform makes the upload stage fail the whole run
with `AuthRequired`. -/
theorem run_upload_disconnected (inner : Stage → StageResult) (p : Project) (n : Nat)
    (hs : p.status = .uploading_youtube) (hn : 1 ≤ n) :
    run n (connectorEnv false inner) p
      = ({ p with status := .failed, errorMsg := some (errMsgOf .authRequired) },
         [Stage.upload]) := by
  obtain ⟨m, rfl⟩ : ∃ m, n = m + 1 := ⟨n - 1, by omega⟩
  have hsf : stageFor p.status = some Stage.upload := by rw [hs]; rfl
  have he : connectorEnv false inner Stage.upload = .failure .authRequired := rfl
  have hstep : step (connectorEnv false inner) p
      = ({ p with status := .failed, errorMsg := some (errMsgOf .authRequired) },
         [Stage.upload]) := by
    simp [step, hsf, he]
  simp [run, hstep, run_from_failed m (connectorEnv false inner)
    { p with status := .failed, errorMsg := some (errMsgOf .authRequired) } rfl]

/-- C6: when a project with `auto_upload = true` reaches the upload stage
while the platform is disconnected, the run ends `failed` with the typed
`AuthRequired` message and never ends in `completed` or `published`. -/
theorem upload_auth_required (inner : Stage → StageResult) (p : Project) (n : Nat)
    (hau : p.autoUpload = true)
    (hs : p.status = .completed ∨ p.status = .uploading_youtube)
    (hn : 2 ≤ n) :
    ((run n (connectorEnv false inner) p).1.status = .failed) ∧
    ((run n (connectorEnv false inner) p).1.errorMsg = some (("AuthRequired").toList)) ∧
    ((run n (connectorEnv false inner) p).1.status ≠ .completed) ∧
    ((run n (connectorEnv false inner) p).1.status ≠ .published) := by
  have key : ∀ q : Project, q.status = .uploading_youtube → ∀ m, 1 ≤ m →
      ((run m (connectorEnv false inner) q).1.status = .failed) ∧
      ((run m (connectorEnv false inner) q).1.errorMsg = some (("AuthRequired").toList)) := by
    intro q hq m hm
    rw [run_upload_disconnected inner q m hq hm]
    exact ⟨rfl, rfl⟩
  rcases hs with hs | hs
  · obtain ⟨m, rfl⟩ : ∃ m, n = m + 1 := ⟨n - 1, by omega⟩
    have hstep : step (connectorEnv false inner) p
        = ({ p with status := .uploading_youtube }, []) := by
      obtain ⟨pid, s, as, em, au, jid⟩ := p
      simp only at hs hau
      subst hs; subst hau
      rfl
    have hr : run (m + 1) (connectorEnv false inner) p
        = run m (connectorEnv false inner) { p with status := .uploading_youtube } := by
      simp [run, hstep]
    obtain ⟨k1, k2⟩ := key { p with status := .uploading_youtube } rfl m (by omega)
    rw [hr]
    refine ⟨k1, k2, ?_, ?_⟩
    · rw [k1]; decide
    · rw [k1]; decide
  · obtain ⟨k1, k2⟩ := key p hs n (by omega)
    refine ⟨k1, k2, ?_, ?_⟩
    · rw [k1]; decide
    · rw [k1]; decide

/-- C6 witness: a completed auto-upload project driven against a
disconnected platform ends `failed` with the `AuthRequired` message. -/
theorem upload_auth_required_w :
    ((run 5 (connectorEnv false allSuccess)
        (Project.mk 8 Status.completed [] none true none)).1.status = .failed) ∧
    ((run 5 (connectorEnv false allSuccess)
        (Project.mk 8 Status.completed [] none true none)).1.errorMsg
      = some (("AuthRequired").toList)) := by
  have h := upload_auth_required allSuccess
      (Project.mk 8 Status.completed [] none true none) 5 rfl (Or.inl rfl) (by omega)
  exact ⟨h.1, h.2.1⟩

/-- Stepping a project never turns a terminal project back into an
in-flight one. -/
theorem inFlight_step (env : Stage → StageResult) (p : Project)
    (h : inFlight ((step env p).1) = true) : inFlight p = true := by
  by_cases ht : terminalStatus p.status p.autoUpload = true
  · rw [step_of_terminal env p ht] at h
    exact h
  · simp [inFlight, ht]

/-- Mapping a pointwise filter-reflecting function over a list cannot
increase the filtered length. -/
theorem filter_map_length_le {α : Type} (l : List α) (f : α → α) (q : α → Bool)
    (h : ∀ x, q (f x) = true → q x = true) :
    ((l.map f).filter q).length ≤ (l.filter q).length := by
  induction l with
  | nil => simp
  | cons x xs ih =>
    simp only [List.map_cons, List.filter_cons]
    by_cases hq : q (f x) = true
    · rw [if_pos hq, if_pos (h x hq)]
      simpa using ih
    · rw [if_neg hq]
      by_cases hqx : q x = true
      · rw [if_pos hqx]
        simp only [List.length_cons]
        omega
      · rw [if_neg hqx]
        exact ih

/-- Handling one job in a tick preserves the at-most-one-in-flight
invariant for every job. -/
theorem tickJob_inv (now : Nat) (st : SchedState) (j : SJob)
    (h : ∀ jid, inFlightCount st jid ≤ 1) :
    ∀ jid, inFlightCount (tickJob now st j).1 jid ≤ 1 := by
  intro jid
  by_cases he : j.enabled = true
  · by_cases hd : now < j.nextRunAt
    · simp only [tickJob, if_pos he, if_pos hd]
      exact h jid
    · by_cases hc : 0 < inFlightCount st j.id
      · simp only [tickJob, if_pos he, if_neg hd, if_pos hc]
        exact h jid
      · simp only [tickJob, if_pos he, if_neg hd, if_neg hc]
        have hc0 : inFlightCount st j.id = 0 := by omega
        simp only [inFlightCount, List.filter_append, List.length_append]
        by_cases hjid : jid = j.id
        · subst hjid
          have h0 : (st.projects.filter
              (fun p => p.jobId == some j.id && inFlight p)).length = 0 := hc0
          rw [h0]
          simp [inFlight, terminalStatus]
        · have hne : ((some j.id == some jid) : Bool) = false := by
            simp
            omega
          simp [List.filter, hne]
          exact h jid
  · simp only [tickJob, if_neg he]
    exact h jid

/-- Folding a tick over a job list preserves the invariant. -/
theorem tickAux_inv (now : Nat) (js : List SJob) (st : SchedState)
    (h : ∀ jid, inFlightCount st jid ≤ 1) :
    ∀ jid, inFlightCount (tickAux now js st).1 jid ≤ 1 := by
  induction js generalizing st with
  | nil => exact h
  | cons j rest ih =>
    exact ih (tickJob now st j).1 (tickJob_inv now st j h)

/-- A whole Scheduler tick preserves the invariant. -/
theorem tick_inv (now : Nat) (st : SchedState)
    (h : ∀ jid, inFlightCount st jid ≤ 1) :
    ∀ jid, inFlightCount (tick now st).1 jid ≤ 1 :=
  tickAux_inv now st.jobs st h

/-- A concurrent pipeline transition inside the store preserves the
invariant. -/
theorem stepProjectIn_inv (env : Stage → StageResult) (pid : Nat) (st : SchedState)
    (h : ∀ jid, inFlightCount st jid ≤ 1) :
    ∀ jid, inFlightCount (stepProjectIn env pid st) jid ≤ 1 := by
  intro jid
  refine le_trans ?_ (h jid)
  simp only [inFlightCount, stepProjectIn]
  apply filter_map_length_le
  intro x hx
  by_cases hid : x.id = pid
  · rw [if_pos hid] at hx
    simp only [Bool.and_eq_true] at hx ⊢
    exact ⟨by rw [← step_jobId env x]; exact hx.1, inFlight_step env x hx.2⟩
  · rw [if_neg hid] at hx
    exact hx

/-- A due, enabled job whose attributed project is still composing its
video is skipped as an overlap, creating nothing. -/
theorem tickJob_overlap (now : Nat) (st : SchedState) (j : SJob)
    (he : j.enabled = true) (hd : j.nextRunAt ≤ now)
    (hp : ∃ p, p ∈ st.projects ∧ p.jobId = some j.id ∧ p.status = .generating_video) :
    (tickJob now st j).2 = .overlapSkipped ∧ (tickJob now st j).1.projects = st.projects := by
  obtain ⟨p, hmem, hjid, hstat⟩ := hp
  have hq : (p.jobId == some j.id && inFlight p) = true := by
    obtain ⟨pid, s, as, em, au, jd⟩ := p
    simp only at hjid hstat
    subst hjid; subst hstat
    simp [inFlight, terminalStatus]
  have hc : 0 < inFlightCount st j.id := by
    have hmf : p ∈ st.projects.filter (fun q => q.jobId == some j.id && inFlight q) :=
      List.mem_filter.2 ⟨hmem, hq⟩
    have hne := List.ne_nil_of_mem hmf
    simp only [inFlightCount]
    exact List.length_pos.2 hne
  simp [tickJob, if_pos he, if_neg (Nat.not_lt.2 hd), if_pos hc]

/-- C3: a Scheduler tick and a concurrent pipeline transition both
preserve the at-most-one-in-flight-project-per-job invariant, and a tick
finding a due job whose attributed project is still non-terminal (here
`generating_video`) produces `OverlapSkipped` and creates no project. -/
theorem scheduler_overlap :
    (∀ now st, (∀ jid, inFlightCount st jid ≤ 1) →
      ∀ jid, inFlightCount (tick now st).1 jid ≤ 1)
    ∧ (∀ env pid st, (∀ jid, inFlightCount st jid ≤ 1) →
      ∀ jid, inFlightCount (stepProjectIn env pid st) jid ≤ 1)
    ∧ (∀ now st (j : SJob), j.enabled = true → j.nextRunAt ≤ now →
      (∃ p, p ∈ st.projects ∧ p.jobId = some j.id ∧ p.status = .generating_video) →
      (tickJob now st j).2 = .overlapSkipped ∧ (tickJob now st j).1.projects = st.projects) :=
  ⟨tick_inv, stepProjectIn_inv, tickJob_overlap⟩

/-- C3 witness: with job 1 due at instant 100 and its project still
composing video, the tick skips as overlap, keeps the project store
unchanged, and the invariant holds after the tick. -/
theorem scheduler_overlap_w :
    ((tickJob 100 wState wJob).2 = .overlapSkipped) ∧
    ((tickJob 100 wState wJob).1.projects = wState.projects) ∧
    (inFlightCount (tick 100 wState).1 1 ≤ 1) := by
  have h3 := scheduler_overlap.2.2 100 wState wJob rfl (by decide)
      ⟨wProj, by simp [wState], rfl, rfl⟩
  have hInv : ∀ jid, inFlightCount wState jid ≤ 1 := by
    intro jid
    simp only [inFlightCount, wState, wProj, List.filter]
    split <;> simp
  have h1 := scheduler_overlap.1 100 wState hInv 1
  exact ⟨h3.1, h3.2, h1⟩

/-- The bounded linear search returns the least satisfying point at or
after its start. -/
theorem findFirst_min (p : Nat → Bool) (fuel start r : Nat)
    (h : findFirst p start fuel = some r) :
    start ≤ r ∧ p r = true ∧ ∀ u, start ≤ u → u < r → p u = false := by
  induction fuel generalizing start with
  | zero => exact absurd h (by simp [findFirst])
  | succ m ih =>
    by_cases hp : p start = true
    · simp [findFirst, hp] at h
      subst h
      exact ⟨le_refl _, hp, fun u h1 h2 => absurd h1 (by omega)⟩
    · simp [findFirst, hp] at h
      obtain ⟨h1, h2, h3⟩ := ih (start + 1) h
      refine ⟨by omega, h2, ?_⟩
      intro u hu1 hu2
      by_cases hu : u = start
      · subst hu
        cases hps : p u
        · rfl
        · exact absurd hps hp
      · exact h3 u (by omega) hu2

/-- Breaking an instant down is invariant under one full Gregorian cycle
(146097 days of minutes): every calendar field and the day of week
repeat with that period. -/
theorem toDT_periodic (t : Nat) : toDT (t + 210379680) = toDT t := by
  have h1440 : (t + 210379680) / 1440 = t / 1440 + 146097 := by omega
  have hdoe : (t / 1440 + 146097 + 719468) % 146097 = (t / 1440 + 719468) % 146097 := by
    omega
  have hdow : (t / 1440 + 146097 + 4) % 7 = (t / 1440 + 4) % 7 := by omega
  have hmin : (t + 210379680) % 60 = t % 60 := by omega
  have hhr : (t + 210379680) / 60 % 24 = t / 60 % 24 := by omega
  simp only [toDT, civilFromDays, h1440, hdoe, hdow, hmin, hhr]

/-- Cron matching is periodic with the Gregorian cycle. -/
theorem cronMatches_periodic (e : CronExpr) (t : Nat) :
    cronMatches e (t + 210379680) = cronMatches e t := by
  simp only [cronMatches, toDT_periodic]

/-- Cron matching is invariant under any number of Gregorian cycles. -/
theorem cronMatches_add_periods (e : CronExpr) (t k : Nat) :
    cronMatches e (t + k * 210379680) = cronMatches e t := by
  induction k with
  | zero => simp
  | succ m ih =>
    have h : t + (m + 1) * 210379680 = (t + m * 210379680) + 210379680 := by ring
    rw [h, cronMatches_periodic, ih]

/-- An exhausted bounded search means no point of its window satisfies
the predicate. -/
theorem findFirst_none (p : Nat → Bool) (fuel start : Nat)
    (h : findFirst p start fuel = none) :
    ∀ u, start ≤ u → u < start + fuel → p u = false := by
  induction fuel generalizing start with
  | zero =>
    intro u h1 h2
    omega
  | succ m ih =>
    intro u h1 h2
    by_cases hp : p start = true
    · simp [findFirst, hp] at h
    · simp [findFirst, hp] at h
      by_cases hu : u = start
      · subst hu
        cases hps : p u
        · rfl
        · exact absurd hps hp
      · exact ih (start + 1) h u (by omega) (by omega)

/-- When the evaluator returns `none`, no instant after the reference
satisfies the expression: the searched window covers one full period of
`cronMatches`. -/
theorem cronNext_none (e : CronExpr) (t : Nat) (h : cronNext e t = none) :
    ∀ u, t < u → cronMatches e u = false := by
  intro u hu
  have hf := findFirst_none (cronMatches e) 210379680 (t + 1) h
  have hu2 : u = (t + 1 + (u - (t + 1)) % 210379680)
      + ((u - (t + 1)) / 210379680) * 210379680 := by omega
  rw [hu2, cronMatches_add_periods]
  exact hf _ (by omega) (by omega)

set_option maxRecDepth 400000 in
/-- C2: for every well-formed expression, a returned next run is strictly
after the reference and is the earliest satisfying instant, and a `none`
result occurs only when no instant after the reference satisfies the
expression at all (the search window is one full period of the matching
function); both concrete examples of the spec evaluate as claimed, and
malformed expressions (a four-field one, and one with minute 61) are
parse failures. -/
theorem cron_next_correct :
    (∀ (s : List Char) e t r, parseCronList s = some e → cronNext e t = some r →
      t < r ∧ cronMatches e r = true ∧ ∀ u, t < u → u < r → cronMatches e u = false)
    ∧ (∀ (s : List Char) e t, parseCronList s = some e → cronNext e t = none →
      ∀ u, t < u → cronMatches e u = false)
    ∧ (cronNextOf (("0 2 * * *").toList) 28401420 = some 28402680)
    ∧ (cronNextOf (("*/6 * * * *").toList) 3 = some 6)
    ∧ (parseCronList (("0 2 * *").toList) = none)
    ∧ (parseCronList (("61 0 * * *").toList) = none) := by
  refine ⟨?_, ?_, by decide, by decide, by decide, by decide⟩
  · intro s e t r hp hn
    obtain ⟨h1, h2, h3⟩ := findFirst_min (cronMatches e) 210379680 (t + 1) r hn
    exact ⟨by omega, h2, fun u hu1 hu2 => h3 u (by omega) hu2⟩
  · intro s e t hp hn
    exact cronNext_none e t hn

/-- C2 witness: the correctness conjunct applied to `*/6 * * * *` at
reference minute 3: the returned instant 6 matches and minute 5 does
not. -/
theorem cron_next_correct_w :
    (3 < 6) ∧ (cronMatches cronE6 6 = true) ∧ (cronMatches cronE6 5 = false) := by
  have h := cron_next_correct.1 (("*/6 * * * *").toList) cronE6 3 6 (by decide) (by decide)
  exact ⟨h.1, h.2.1, h.2.2 5 (by omega) (by omega)⟩

/-- C7: amended — the page does not reject a status string outside the
ten enumerated states: it renders a fallback badge with the `secondary`
variant, the Clock icon, and the raw status string as label. -/
theorem unknown_status_fallback (s : String) (h : statusOfString s = none) :
    renderBadge s = { variant := .secondary, icon := .clock, label := s } := by
  simp [renderBadge, h]

/-- C7 counterexample: the out-of-set status string "exploded" is not
rejected; the page renders a fallback badge for it. -/
theorem unknown_status_fallback_cex :
    (statusOfString ("exploded") = none) ∧
    (renderBadge ("exploded")
      = { variant := .secondary, icon := .clock, label := ("exploded") }) :=
  ⟨by decide, by decide⟩

/-- C7 witness: the fallback rendering applied at the unknown status
string "zzz". -/
theorem unknown_status_fallback_w :
    renderBadge ("zzz") = { variant := .secondary, icon := .clock, label := ("zzz") } :=
  unknown_status_fallback ("zzz") (by decide)

/-- C8: amended — an absolute (http or https) URL is returned unchanged,
and a relative identifier is resolved against the base location unless it
begins with the four characters "http", in which case it is passed
through unresolved. -/
theorem static_url_resolution (base u : List Char) :
    (isAbsoluteUrl u = true → getStaticUrl base u = u) ∧
    (httpChars.isPrefixOf u = false → getStaticUrl base u = base ++ staticSeg ++ u) := by
  constructor
  · intro h
    have hpre : httpChars.isPrefixOf u = true := by
      rw [List.isPrefixOf_iff_prefix]
      simp only [isAbsoluteUrl, Bool.or_eq_true, List.isPrefixOf_iff_prefix] at h
      rcases h with h | h
      · exact List.IsPrefix.trans (by decide) h
      · exact List.IsPrefix.trans (by decide) h
    simp [getStaticUrl, hpre]
  · intro h
    simp [getStaticUrl, h]

/-- C8 counterexample: "httpclip.mp4" is a relative identifier (not an
absolute URL) yet is passed through unchanged instead of being resolved
against the base location. -/
theorem static_url_resolution_cex :
    (isAbsoluteUrl (("httpclip.mp4").toList) = false) ∧
    (getStaticUrl defaultApiBase (("httpclip.mp4").toList) = ("httpclip.mp4").toList) ∧
    (getStaticUrl defaultApiBase (("httpclip.mp4").toList)
      ≠ defaultApiBase ++ staticSeg ++ ("httpclip.mp4").toList) :=
  ⟨by decide, by decide, by decide⟩

/-- C8 witness: an absolute https URL passes through and a plain relative
identifier resolves against the base. -/
theorem static_url_resolution_w :
    (getStaticUrl defaultApiBase (("https://cdn.example.com/a.mp4").toList)
      = ("https://cdn.example.com/a.mp4").toList) ∧
    (getStaticUrl defaultApiBase (("videos/final.mp4").toList)
      = defaultApiBase ++ staticSeg ++ ("videos/final.mp4").toList) :=
  ⟨(static_url_resolution defaultApiBase _).1 (by decide),
   (static_url_resolution defaultApiBase _).2 (by decide)⟩

/-- C9: pass-through is decided exactly by the prefix "http": for every
base and url the result equals the input iff the input starts with
"http"; every other string resolves to base, "/static/", then the
identifier; in particular "httpclip.mp4" is passed through unresolved. -/
theorem static_url_http_boundary :
    (∀ base u, getStaticUrl base u = u ↔ httpChars.isPrefixOf u = true)
    ∧ (∀ base u, httpChars.isPrefixOf u = false →
        getStaticUrl base u = base ++ staticSeg ++ u)
    ∧ (∀ base, getStaticUrl base (("httpclip.mp4").toList) = ("httpclip.mp4").toList) := by
  refine ⟨?_, ?_, ?_⟩
  · intro base u
    constructor
    · intro h
      by_cases hp : httpChars.isPrefixOf u = true
      · exact hp
      · exfalso
        rw [getStaticUrl, if_neg (by simp [hp])] at h
        have hlen := congrArg List.length h
        simp [List.length_append, staticSeg] at hlen
        omega
    · intro h
      simp [getStaticUrl, h]
  · intro base u h
    simp [getStaticUrl, h]
  · intro base
    have hp : httpChars <+: (("httpclip.mp4").toList) := by decide
    simp only [getStaticUrl]
    rw [if_pos (by exact List.isPrefixOf_iff_prefix.2 hp)]

/-- C9 witness: the resolution conjunct applied at "clip.mp4" and the
pass-through direction of the equivalence at an absolute URL. -/
theorem static_url_http_boundary_w :
    (getStaticUrl defaultApiBase (("clip.mp4").toList)
      = defaultApiBase ++ staticSeg ++ ("clip.mp4").toList) ∧
    (getStaticUrl defaultApiBase (("http://x.com/v.mp4").toList)
      = ("http://x.com/v.mp4").toList) :=
  ⟨static_url_http_boundary.2.1 defaultApiBase _ (by decide),
   (static_url_http_boundary.1 defaultApiBase _).2 (by decide)⟩

/-- C10: amended — `authFetch` returns the parsed body for every ok
response with a parseable JSON body and throws exactly when the response
is not ok or its body is not parseable JSON; for non-ok responses the
thrown `Error`'s message is the object body's truthy `detail`,
"Unknown error" for an unparseable body, and `API Error: status` for a
parsed non-null body without a truthy `detail`, while a JSON null body
makes the `detail` read itself throw a `TypeError`. -/
theorem authFetch_behavior :
    (∀ r j, r.ok = true → r.bodyJson = some j → authFetch r = .ok j)
    ∧ (∀ r, r.ok = false → r.bodyJson = none →
        authFetch r = .error (.err ("Unknown error")))
    ∧ (∀ r d, r.ok = false → r.bodyJson = some (.obj (some d)) → d ≠ "" →
        authFetch r = .error (.err d))
    ∧ (∀ r od, r.ok = false → r.bodyJson = some (.obj od) →
        (od = none ∨ od = some "") →
        authFetch r = .error (.err ("API Error: " ++ toString r.status)))
    ∧ (∀ r, r.ok = false → r.bodyJson = some .prim →
        authFetch r = .error (.err ("API Error: " ++ toString r.status)))
    ∧ (∀ r, r.ok = false → r.bodyJson = some .null →
        authFetch r = .error .typeError)
    ∧ (∀ r, isErr (authFetch r) = true ↔ (r.ok = false ∨ r.bodyJson = none)) := by
  refine ⟨?_, ?_, ?_, ?_, ?_, ?_, ?_⟩
  · intro r j h1 h2
    simp [authFetch, h1, h2]
  · intro r h1 h2
    simp [authFetch, h1, h2, thrownFor]
  · intro r d h1 h2 h3
    simp [authFetch, h1, h2, thrownFor, h3]
  · intro r od h1 h2 h3
    rcases h3 with h3 | h3 <;> subst h3 <;> simp [authFetch, h1, h2, thrownFor]
  · intro r h1 h2
    simp [authFetch, h1, h2, thrownFor]
  · intro r h1 h2
    simp [authFetch, h1, h2, thrownFor]
  · intro r
    obtain ⟨ok, stat, body⟩ := r
    cases ok
    · simp [authFetch, isErr]
    · cases body
      · simp [authFetch, isErr]
      · simp [authFetch, isErr]

/-- C10 counterexample: an ok response whose body fails to parse as JSON
still throws, so "throws iff the status is not ok" is false; moreover a
non-ok response whose body is JSON `null` (JSON without a truthy
`detail`) throws a `TypeError` rather than an `Error` with the claimed
`API Error: status` message. -/
theorem authFetch_ok_throws_cex :
    ((HttpResponse.mk true 200 none).ok = true) ∧
    (authFetch (HttpResponse.mk true 200 none) = .error Thrown.syntaxError) ∧
    (isErr (authFetch (HttpResponse.mk true 200 none)) = true) ∧
    (authFetch (HttpResponse.mk false 500 (some JsonBody.null))
      = .error Thrown.typeError) ∧
    (Thrown.typeError ≠ Thrown.err ("API Error: " ++ toString (500 : Nat))) :=
  ⟨rfl, rfl, rfl, rfl, by decide⟩

/-- C10 witness: the message rules applied at concrete responses,
including a JSON null body. -/
theorem authFetch_behavior_w :
    (authFetch (HttpResponse.mk true 200 (some (JsonBody.obj (some ("x")))))
      = .ok (JsonBody.obj (some ("x")))) ∧
    (authFetch (HttpResponse.mk false 404 (some (JsonBody.obj (some ("Not found")))))
      = .error (.err ("Not found"))) ∧
    (authFetch (HttpResponse.mk false 500 none) = .error (.err ("Unknown error"))) ∧
    (authFetch (HttpResponse.mk false 500 (some (JsonBody.obj none)))
      = .error (.err ("API Error: " ++ toString (500 : Nat)))) ∧
    (authFetch (HttpResponse.mk false 502 (some JsonBody.null))
      = .error Thrown.typeError) :=
  ⟨authFetch_behavior.1 _ _ rfl rfl,
   authFetch_behavior.2.2.1 _ ("Not found") rfl rfl (by decide),
   authFetch_behavior.2.1 _ rfl rfl,
   authFetch_behavior.2.2.2.1 _ none rfl rfl (Or.inl rfl),
   authFetch_behavior.2.2.2.2.2.1 _ rfl rfl⟩
